import Mathlib

/-!
Verification development for the bookmark API core: the request pipeline
(error boundary, security headers, bearer authentication, request validation)
and the `BookmarkService` resource layer (create / list / get / update /
soft-delete / tag listing) backed by a Supabase table.

The service code builds Supabase query chains; the embedding applies exactly
the predicates the service itself attaches to each query, over an explicit
table of rows (`List Bookmark`).  Row-level-security filtering performed by
the external store is deliberately not part of these definitions: the source
delegates owner scoping to RLS (`@invariants All queries scoped to
authenticated user via RLS`) and attaches no owner predicate of its own.
Timestamps are modelled as naturals (the store compares `timestamptz` values
totally), identifiers as strings.
-/

/-- A row of the `bookmarks` table (schema `BookmarkSchema` /
migration `001_create_bookmarks_table.sql`). `deleted_at = none` means the
record is active. -/
structure Bookmark where
  id : String
  user_id : String
  url : String
  title : String
  description : Option String
  tags : Option (List String)
  created_at : Nat
  updated_at : Nat
  deleted_at : Option Nat
deriving DecidableEq

/-- Validated payload of `CreateBookmarkSchema` (url and title required,
description and tags optional). -/
structure CreateBookmark where
  url : String
  title : String
  description : Option String
  tags : Option (List String)
deriving DecidableEq

/-- Validated payload of `UpdateBookmarkSchema` (every field optional). -/
structure UpdateBookmark where
  url : Option String
  title : Option String
  description : Option String
  tags : Option (List String)
deriving DecidableEq

/-- Validated list query (`BookmarkQuerySchema`): optional tag filter,
optional cursor (a bookmark id), optional limit (validated into 1..100 by the
schema; the service defaults a missing limit to 20). -/
structure BookmarkQuery where
  tag : Option String
  cursor : Option String
  limit : Option Nat
deriving DecidableEq

/-- Result shape of `BookmarkService.listBookmarks`. -/
structure ListResult where
  bookmarks : List Bookmark
  hasMore : Bool
  cursor : Option String
deriving DecidableEq

/-! ### The service's query predicates and helpers -/

/-- `order('created_at', { ascending: false })`: sort rows by creation time
descending (insertion sort, stable; the store's tie order among equal
timestamps is unspecified in the source). -/
def sortByCreatedDesc (rows : List Bookmark) : List Bookmark :=
  List.insertionSort (fun a b => b.created_at ≤ a.created_at) rows

/-- The cursor-resolution query of `listBookmarks`:
`from('bookmarks').select('created_at').eq('id', cursor).single()` — looks up
the `created_at` of the row whose id is the cursor; `none` when the cursor
does not resolve. -/
def cursorCreatedAt (store : List Bookmark) (cur : String) : Option Nat :=
  (store.find? (fun b => b.id = cur)).map (fun b => b.created_at)

/-- `contains('tags', [tag])`: Postgres array containment; a `NULL` tags
column never contains anything. -/
def rowHasTag (b : Bookmark) (t : String) : Bool :=
  (b.tags.getD []).contains t

/-- The optional tag filter of `listBookmarks`
(`if (query.tag) supabaseQuery.contains('tags', [query.tag])`). -/
def applyTagFilter : Option String → List Bookmark → List Bookmark
  | some t, rows => rows.filter (fun b => rowHasTag b t)
  | none, rows => rows

/-- The optional cursor filter of `listBookmarks`: when the cursor is present
and resolves to a row, keep only rows strictly before that row's creation
time; an absent or unresolvable cursor adds no filter. -/
def applyCursorFilter (store : List Bookmark) (cur : Option String)
    (rows : List Bookmark) : List Bookmark :=
  match cur.bind (cursorCreatedAt store) with
  | some t => rows.filter (fun b => b.created_at < t)
  | none => rows

/-- The row predicates the `listBookmarks` query chain attaches: only
non-deleted rows (`is('deleted_at', null)`), the optional tag containment
filter, and the optional cursor filter. -/
def listRows (store : List Bookmark) (q : BookmarkQuery) : List Bookmark :=
  applyCursorFilter store q.cursor
    (applyTagFilter q.tag (store.filter (fun b => b.deleted_at = none)))

/-- `BookmarkService.listBookmarks` success path: the filtered rows
(`listRows`), ordered by creation time descending; fetch `limit + 1` rows,
report `hasMore` when the extra row exists, truncate to `limit`, and derive
the next cursor from the last returned row's id. -/
def listBookmarks (store : List Bookmark) (q : BookmarkQuery) : ListResult :=
  let lim := q.limit.getD 20
  let fetched := (sortByCreatedDesc (listRows store q)).take (lim + 1)
  let hasMore : Bool := lim < fetched.length
  let result := if hasMore then fetched.take lim else fetched
  let cur : Option String :=
    if hasMore then (result.getLast?).map (fun b => b.id) else none
  { bookmarks := result, hasMore := hasMore, cursor := cur }

/-- `BookmarkService.getBookmarkById` success path:
`select('*').eq('id', id).is('deleted_at', null).single()` — `null` when no
row matches (PGRST116). -/
def getBookmarkById (store : List Bookmark) (id : String) : Option Bookmark :=
  store.find? (fun b => b.id = id && b.deleted_at = none)

/-- The JavaScript `x || null` coercion on an optional string: both an absent
value and the (falsy) empty string become `null`. -/
def jsOrNull (o : Option String) : Option String :=
  match o with
  | some s => if s = "" then none else some s
  | none => none

/-- The JavaScript `x || null` coercion on an optional array: only an absent
value becomes `null` (an empty array is truthy). -/
def jsOrNullList (o : Option (List String)) : Option (List String) :=
  match o with
  | some l => some l
  | none => none

/-- `BookmarkService.createBookmark` success path: spreads the validated
input, binds `user_id` to the service's caller, coerces `tags` and
`description` with `|| null`, inserts, and returns the inserted row with the
server-assigned id and timestamps. -/
def createBookmark (userId : String) (d : CreateBookmark) (newId : String)
    (now : Nat) (store : List Bookmark) : Bookmark × List Bookmark :=
  let row : Bookmark :=
    { id := newId
      user_id := userId
      url := d.url
      title := d.title
      description := jsOrNull d.description
      tags := jsOrNullList d.tags
      created_at := now
      updated_at := now
      deleted_at := none }
  (row, store ++ [row])

/-- Overwrite the fields supplied in an `UpdateBookmark` on a row (the
`updateData` spread of `BookmarkService.updateBookmark`); the store's trigger
refreshes `updated_at` on every update. -/
def applyUpdate (d : UpdateBookmark) (now : Nat) (b : Bookmark) : Bookmark :=
  { b with
    url := d.url.getD b.url
    title := d.title.getD b.title
    description := match d.description with
      | some s => some s
      | none => b.description
    tags := match d.tags with
      | some l => some l
      | none => b.tags
    updated_at := now }

/-- `BookmarkService.updateBookmark` success path:
`update(updateData).eq('id', id).is('deleted_at', null).select().single()` —
writes only the supplied fields on the active row with that id, returning the
updated row, or `null` (PGRST116) when no active row matches. -/
def updateBookmark (store : List Bookmark) (id : String) (d : UpdateBookmark)
    (now : Nat) : Option Bookmark × List Bookmark :=
  let hit := store.find? (fun b => b.id = id && b.deleted_at = none)
  match hit with
  | none => (none, store)
  | some b =>
      let b' := applyUpdate d now b
      (some b',
        store.map (fun r => if r.id = id && r.deleted_at = none then applyUpdate d now r else r))

/-- `BookmarkService.deleteBookmark` success path:
`update({ deleted_at: now }).eq('id', id).is('deleted_at', null)` — stamps the
deletion marker on the active row with that id (no-op when none matches) and
returns `true` unconditionally. -/
def deleteBookmark (store : List Bookmark) (id : String) (now : Nat) :
    Bool × List Bookmark :=
  (true,
    store.map (fun b =>
      if b.id = id && b.deleted_at = none then
        { b with deleted_at := some now, updated_at := now }
      else b))

/-- First-occurrence deduplication, the
`filter((tag, index, array) => array.indexOf(tag) === index)` idiom of
`getUserTags`. -/
def dedupFirst : List String → List String
  | [] => []
  | a :: l => a :: (dedupFirst l).filter (fun s => s ≠ a)

/-- JavaScript `Array.prototype.sort()` on strings: lexicographic ascending. -/
def sortStrings (l : List String) : List String :=
  List.insertionSort (fun a b : String => a ≤ b) l

/-- `BookmarkService.getUserTags` success path:
`select('tags').is('deleted_at', null).not('tags', 'is', null)`, then flatten,
first-occurrence dedup, and sort. -/
def getUserTags (store : List Bookmark) : List String :=
  let rows := store.filter (fun b => b.deleted_at = none && b.tags ≠ none)
  sortStrings (dedupFirst (rows.flatMap (fun b => b.tags.getD [])))

/-! ### Schema validators

`CreateBookmarkSchema` / `UpdateBookmarkSchema` (zod).  Raw input is modelled
as optional fields of the schema's carrier types; `safeParse` either accepts
and returns the typed value, or rejects with a `flatten().fieldErrors` map
keyed by the offending top-level field. -/

/-- Raw body of a create request, before `CreateBookmarkSchema` runs. -/
structure RawCreateInput where
  url : Option String
  title : Option String
  description : Option String
  tags : Option (List String)
deriving DecidableEq

/-- Raw body of an update request, before `UpdateBookmarkSchema` runs. -/
structure RawUpdateInput where
  url : Option String
  title : Option String
  description : Option String
  tags : Option (List String)
deriving DecidableEq

/-- A hexadecimal digit. -/
def isHexChar (c : Char) : Bool :=
  c.isDigit || ('a' ≤ c && c ≤ 'f') || ('A' ≤ c && c ≤ 'F')

/-- Split a character list at each hyphen (helper for the uuid shape check). -/
def splitDash : List Char → List (List Char)
  | [] => [[]]
  | c :: cs =>
      if c = '-' then [] :: splitDash cs
      else
        match splitDash cs with
        | [] => [[c]]
        | p :: ps => (c :: p) :: ps

/-- `z.string().uuid()` (`BookmarkParamsSchema`): five hyphen-separated hex
groups of lengths 8-4-4-4-12. -/
def isUuidLike (s : String) : Bool :=
  match splitDash s.data with
  | [a, b, c, d, e] =>
      a.length = 8 && b.length = 4 && c.length = 4 && d.length = 4 &&
      e.length = 12 && (a ++ b ++ c ++ d ++ e).all isHexChar
  | _ => false

/-- Split off the scheme of a locator at the first colon. -/
def splitScheme : List Char → Option (List Char × List Char)
  | [] => none
  | c :: cs =>
      if c = ':' then some ([], cs)
      else (splitScheme cs).map (fun p => (c :: p.1, p.2))

/-- `z.string().url()`: the value must parse as an absolute URL reference
(`new URL(value)` succeeds) — a leading scheme (letter, then letters, digits,
`+`, `-` or `.`) followed by a colon.  Note the schema accepts **any**
scheme; nothing restricts the locator to http(s). -/
def isValidUrl (s : String) : Bool :=
  match splitScheme s.data with
  | some (c :: rest, _) =>
      c.isAlpha && rest.all (fun ch => ch.isAlphanum || ch = '+' || ch = '-' || ch = '.')
  | _ => false

/-- Field errors of `CreateBookmarkSchema.safeParse` (`flatten().fieldErrors`):
one entry per offending top-level field, in schema field order.  The tag item
schema is `z.string().max(50)` — it has **no** minimum length, so an empty
tag string passes. -/
def createFieldErrors (i : RawCreateInput) : List (String × List String) :=
  let urlErrs : List String :=
    match i.url with
    | none => ["Required"]
    | some u =>
        (if isValidUrl u then [] else ["Invalid url"]) ++
        (if u.length ≤ 2048 then [] else ["String must contain at most 2048 character(s)"])
  let titleErrs : List String :=
    match i.title with
    | none => ["Required"]
    | some t =>
        (if 1 ≤ t.length then [] else ["String must contain at least 1 character(s)"]) ++
        (if t.length ≤ 500 then [] else ["String must contain at most 500 character(s)"])
  let descErrs : List String :=
    match i.description with
    | none => []
    | some d => if d.length ≤ 2000 then [] else ["String must contain at most 2000 character(s)"]
  let tagsErrs : List String :=
    match i.tags with
    | none => []
    | some ts =>
        (if ts.length ≤ 20 then [] else ["Array must contain at most 20 element(s)"]) ++
        (if ts.all (fun t => t.length ≤ 50) then []
         else ["String must contain at most 50 character(s)"])
  (if urlErrs = [] then [] else [("url", urlErrs)]) ++
  (if titleErrs = [] then [] else [("title", titleErrs)]) ++
  (if descErrs = [] then [] else [("description", descErrs)]) ++
  (if tagsErrs = [] then [] else [("tags", tagsErrs)])

/-- `CreateBookmarkSchema.safeParse`: the typed value, or the field-error map. -/
def validateCreate (i : RawCreateInput) :
    Except (List (String × List String)) CreateBookmark :=
  match createFieldErrors i with
  | [] =>
      match i.url, i.title with
      | some u, some t =>
          .ok { url := u, title := t, description := i.description, tags := i.tags }
      | _, _ => .error []
  | es => .error es

/-- Field errors of `UpdateBookmarkSchema.safeParse`: the same bounds as the
create schema, but every field optional. -/
def updateFieldErrors (i : RawUpdateInput) : List (String × List String) :=
  let urlErrs : List String :=
    match i.url with
    | none => []
    | some u =>
        (if isValidUrl u then [] else ["Invalid url"]) ++
        (if u.length ≤ 2048 then [] else ["String must contain at most 2048 character(s)"])
  let titleErrs : List String :=
    match i.title with
    | none => []
    | some t =>
        (if 1 ≤ t.length then [] else ["String must contain at least 1 character(s)"]) ++
        (if t.length ≤ 500 then [] else ["String must contain at most 500 character(s)"])
  let descErrs : List String :=
    match i.description with
    | none => []
    | some d => if d.length ≤ 2000 then [] else ["String must contain at most 2000 character(s)"]
  let tagsErrs : List String :=
    match i.tags with
    | none => []
    | some ts =>
        (if ts.length ≤ 20 then [] else ["Array must contain at most 20 element(s)"]) ++
        (if ts.all (fun t => t.length ≤ 50) then []
         else ["String must contain at most 50 character(s)"])
  (if urlErrs = [] then [] else [("url", urlErrs)]) ++
  (if titleErrs = [] then [] else [("title", titleErrs)]) ++
  (if descErrs = [] then [] else [("description", descErrs)]) ++
  (if tagsErrs = [] then [] else [("tags", tagsErrs)])

/-- `UpdateBookmarkSchema.safeParse`. -/
def validateUpdate (i : RawUpdateInput) :
    Except (List (String × List String)) UpdateBookmark :=
  match updateFieldErrors i with
  | [] => .ok { url := i.url, title := i.title, description := i.description, tags := i.tags }
  | es => .error es

/-! ### Route handlers

Each route's observable outcome: HTTP status, optional validation details,
and the table after the call.  The `validateBody` middleware short-circuits
with 400 and the `flatten().fieldErrors` map before the handler runs, so a
schema-rejected request leaves the table untouched. -/

/-- Outcome of one request: status, `details` map when validation failed,
and the table afterwards. -/
structure RouteOutcome where
  status : Nat
  details : Option (List (String × List String))
  store : List Bookmark
deriving DecidableEq

/-- `POST /api/bookmarks` (success path of the store): `validateBody` then
`createBookmark`, 201 with the created row. -/
def createRoute (store : List Bookmark) (userId : String) (i : RawCreateInput)
    (newId : String) (now : Nat) : RouteOutcome :=
  match validateCreate i with
  | .error es => { status := 400, details := some es, store := store }
  | .ok d =>
      let r := createBookmark userId d newId now store
      { status := 201, details := none, store := r.2 }

/-- `PUT /api/bookmarks/:id`: `validateBody`, then `validateId` (400 on a
malformed id), then `updateBookmark` (404 when no active row matched). -/
def updateRoute (store : List Bookmark) (id : String) (i : RawUpdateInput)
    (now : Nat) : RouteOutcome :=
  match validateUpdate i with
  | .error es => { status := 400, details := some es, store := store }
  | .ok d =>
      if isUuidLike id then
        match updateBookmark store id d now with
        | (none, s) => { status := 404, details := none, store := s }
        | (some _, s) => { status := 200, details := none, store := s }
      else { status := 400, details := none, store := store }

/-- `DELETE /api/bookmarks/:id`: `validateId` (400 on a malformed id), then
`deleteBookmark`, then an unconditional 204 — the handler never inspects
whether an active row existed. -/
def deleteRoute (store : List Bookmark) (id : String) (now : Nat) : RouteOutcome :=
  if isUuidLike id then
    { status := 204, details := none, store := (deleteBookmark store id now).2 }
  else { status := 400, details := none, store := store }

/-- `GET /api/bookmarks/tags` over the service result: 500 when the store
errors, otherwise 200 with `getUserTags`. -/
def tagsRoute (res : Except Unit (List Bookmark)) : Nat × List String :=
  match res with
  | .error _ => (500, [])
  | .ok store => (200, getUserTags store)

/-! ### Cursor-following pagination driver

Repeated `GET /api/bookmarks` calls, each passing the cursor returned by the
previous call, until a call returns no cursor.  Fuel bounds the recursion;
`store.length + 1` calls always suffice. -/

/-- The pages produced by following cursors, starting from `cur`. -/
def paginateAux (store : List Bookmark) (lim : Nat) :
    Nat → Option String → List ListResult
  | 0, _ => []
  | fuel + 1, cur =>
      let r := listBookmarks store { tag := none, cursor := cur, limit := some lim }
      match r.cursor with
      | none => [r]
      | some c => r :: paginateAux store lim fuel (some c)

/-- All pages of a cursor-following traversal with page size `lim`. -/
def paginate (store : List Bookmark) (lim : Nat) : List ListResult :=
  paginateAux store lim (store.length + 1) none

/-! ### Middleware pipeline

`index.ts` registers, outermost first: `errorMiddleware`, then
`headersMiddleware`, then `authMiddleware`, then the routes.  A stage that
runs `await next()` observes either a response or a propagating exception;
code after `await next()` runs only when no exception propagated. -/

/-- An HTTP response: status, headers (an association list; `headers.set`
replaces an existing name or appends), and the serialized JSON body. -/
structure Resp where
  status : Nat
  headers : List (String × String)
  body : String
deriving DecidableEq

/-- `headers.set(name, value)`: replace the value under `name`, or append. -/
def setHeader (hs : List (String × String)) (name value : String) :
    List (String × String) :=
  if hs.any (fun p => p.1 = name) then
    hs.map (fun p => if p.1 = name then (name, value) else p)
  else hs ++ [(name, value)]

/-- Look a header up by name. -/
def getHeader (hs : List (String × String)) (name : String) : Option String :=
  (hs.find? (fun p => p.1 = name)).map (fun p => p.2)

/-- The `DEFAULT_CSP` constant of `headers.ts`. -/
def DEFAULT_CSP : String :=
  String.intercalate "; "
    ["default-src 'self'", "script-src 'self'", "style-src 'self' 'unsafe-inline'",
     "img-src 'self' data:", "font-src 'self'", "connect-src 'self'",
     "frame-ancestors 'none'", "base-uri 'self'", "form-action 'self'",
     "upgrade-insecure-requests"]

/-- The `PERMISSIONS_POLICY` constant of `headers.ts`. -/
def PERMISSIONS_POLICY : String :=
  String.intercalate ", "
    ["camera=()", "microphone=()", "geolocation=()", "payment=()", "usb=()",
     "magnetometer=()", "gyroscope=()", "accelerometer=()"]

/-- The header names `headersMiddleware` always sets. -/
def securityHeaderNames : List String :=
  ["Strict-Transport-Security", "X-Content-Type-Options", "X-Frame-Options",
   "Referrer-Policy", "Content-Security-Policy", "Permissions-Policy"]

/-- The decoration `headersMiddleware` performs after `await next()` returns:
the six fixed security headers, plus cache-disabling headers when the request
carried an `Authorization` header. -/
def applySecurityHeaders (reqAuth : Option String) (hs : List (String × String)) :
    List (String × String) :=
  let hs := setHeader hs "Strict-Transport-Security"
    "max-age=63072000; includeSubDomains; preload"
  let hs := setHeader hs "X-Content-Type-Options" "nosniff"
  let hs := setHeader hs "X-Frame-Options" "DENY"
  let hs := setHeader hs "Referrer-Policy" "strict-origin-when-cross-origin"
  let hs := setHeader hs "Content-Security-Policy" DEFAULT_CSP
  let hs := setHeader hs "Permissions-Policy" PERMISSIONS_POLICY
  match reqAuth with
  | some _ =>
      setHeader (setHeader hs "Cache-Control" "no-store, no-cache, must-revalidate")
        "Pragma" "no-cache"
  | none => hs

/-- A value thrown by a downstream stage: an `Error` instance (message and
optional stack), or any non-`Error` value. -/
inductive Thrown where
  | exception (message : String) (stack : Option String)
  | otherValue (payload : String)
deriving DecidableEq

/-- What `errorMiddleware` logs for a caught value:
`err instanceof Error ? err.message : 'Unknown error'`. -/
def thrownMessage : Thrown → String
  | .exception m _ => m
  | .otherValue _ => "Unknown error"

/-- `err instanceof Error ? err.stack : undefined`. -/
def thrownStack : Thrown → Option String
  | .exception _ s => s
  | .otherValue _ => none

/-- A structured log record of `logger` (`LogEntry` without the timestamp). -/
structure LogEntry where
  level : String
  event : String
  actor : String
  outcome : String
  path : String
  method : String
  errorMsg : Option String
  stack : Option String
deriving DecidableEq

/-- The body `c.json({ error: 'An internal error occurred' })` serializes to. -/
def internalErrorBody : String :=
  "\x7b\"error\":\"An internal error occurred\"\x7d"

/-- The generic 500 response `errorMiddleware` builds in its catch branch:
a fresh JSON response — none of the security headers are on it. -/
def genericInternalResp : Resp :=
  { status := 500
    headers := [("Content-Type", "application/json")]
    body := internalErrorBody }

/-- The catch branch of `errorMiddleware`: log the full detail (message,
stack when available, path, method, caller identity when known), then return
the generic 500. -/
def errorCatch (path method : String) (ctxUser : Option String) (t : Thrown) :
    LogEntry × Resp :=
  ({ level := "error"
     event := "server.unhandled_error"
     actor := ctxUser.getD "unauthenticated"
     outcome := "failure"
     path := path
     method := method
     errorMsg := some (thrownMessage t)
     stack := thrownStack t },
   genericInternalResp)

/-- `headersMiddleware` around a downstream computation: when `next()`
returns a response the headers are decorated; a propagating exception skips
the decoration entirely. -/
def headersLayer (reqAuth : Option String) (inner : Except Thrown Resp) :
    Except Thrown Resp :=
  match inner with
  | .ok r => .ok { r with headers := applySecurityHeaders reqAuth r.headers }
  | .error e => .error e

/-- `errorMiddleware` around a downstream computation: pass a response
through, convert a propagating exception into a log record plus the generic
500. -/
def errorLayer (path method : String) (ctxUser : Option String)
    (inner : Except Thrown Resp) : List LogEntry × Resp :=
  match inner with
  | .ok r => ([], r)
  | .error t =>
      let lr := errorCatch path method ctxUser t
      ([lr.1], lr.2)

/-- The full boundary pipeline of `index.ts` around a downstream result:
`errorMiddleware` outermost, `headersMiddleware` inside it. -/
def pipeline (path method : String) (ctxUser : Option String)
    (reqAuth : Option String) (inner : Except Thrown Resp) : List LogEntry × Resp :=
  errorLayer path method ctxUser (headersLayer reqAuth inner)

/-! ### Authenticator (`authMiddleware`) -/

/-- `s.startsWith(p)`. -/
def strStartsWith (s p : String) : Bool :=
  p.data.isPrefixOf s.data

/-- `s.slice(n)`: drop the first `n` characters. -/
def strSlice (s : String) (n : Nat) : String :=
  String.mk (s.data.drop n)

/-- What the identity provider answers for a token
(`supabase.auth.getUser(token)`): a verified user id, a rejection
(invalid / expired / malformed), or a thrown transport failure. -/
inductive ProviderResult where
  | okUser (userId : String)
  | rejected
  | unreachable
deriving DecidableEq

/-- The decision `authMiddleware` reaches before consulting the provider:
forward a public path, short-circuit 401, or hand the extracted credential to
the provider. -/
inductive AuthStep where
  | publicBypass
  | missingToken401
  | providerVerify (token : String)
deriving DecidableEq

/-- The header / scheme gate of `authMiddleware`: a public path forwards
unconditionally; a missing header or one not starting with `Bearer ` (with
the trailing space) short-circuits with 401; otherwise the text after
`Bearer ` — possibly empty — goes to the provider. -/
def authStep (path : String) (authHeader : Option String) : AuthStep :=
  if strStartsWith path "/api/auth" then .publicBypass
  else
    match authHeader with
    | none => .missingToken401
    | some h =>
        if strStartsWith h "Bearer " then .providerVerify (strSlice h 7)
        else .missingToken401

/-- The request-level outcome of `authMiddleware`. -/
inductive AuthResult where
  | forwarded (userId : Option String)
  | resp401 (errorMsg : String)
deriving DecidableEq

/-- `authMiddleware` end to end, with the provider as an oracle: public paths
forward without identity; missing header or wrong scheme answer 401
`Authentication required`; otherwise the extracted token is verified, and
provider rejection, provider failure, or success decide the outcome. -/
def authMiddleware (path : String) (authHeader : Option String)
    (provider : String → ProviderResult) : AuthResult :=
  match authStep path authHeader with
  | .publicBypass => .forwarded none
  | .missingToken401 => .resp401 "Authentication required"
  | .providerVerify tok =>
      match provider tok with
      | .okUser uid => .forwarded (some uid)
      | .rejected => .resp401 "Invalid or expired token"
      | .unreachable => .resp401 "Authentication failed"

/-- The body of `c.json({ error: 'Authentication required' })`. -/
def authRequired401 : Resp :=
  { status := 401
    headers := [("Content-Type", "application/json")]
    body := "\x7b\"error\":\"Authentication required\"\x7d" }

/-- The body of `c.json({ error: 'Invalid or expired token' })`. -/
def invalidToken401 : Resp :=
  { status := 401
    headers := [("Content-Type", "application/json")]
    body := "\x7b\"error\":\"Invalid or expired token\"\x7d" }

/-- The body of `c.json({ error: 'Authentication failed' })`. -/
def authFailed401 : Resp :=
  { status := 401
    headers := [("Content-Type", "application/json")]
    body := "\x7b\"error\":\"Authentication failed\"\x7d" }

/-- `authMiddleware` as a pipeline layer around the downstream computation.
The public-path bypass runs `await next()` outside the `try`, so a value
thrown downstream propagates outward; but for a verified credential the
`try` block of `auth.ts` wraps **both** the provider verification and
`await next()`, so a value thrown by any stage downstream of authentication
is caught by this middleware's `catch` and answered 401
`Authentication failed` — it never propagates to the Error Boundary. -/
def authLayer (path : String) (authHeader : Option String)
    (provider : String → ProviderResult) (inner : Except Thrown Resp) :
    Except Thrown Resp :=
  match authStep path authHeader with
  | .publicBypass => inner
  | .missingToken401 => .ok authRequired401
  | .providerVerify tok =>
      match provider tok with
      | .rejected => .ok invalidToken401
      | .unreachable => .ok authFailed401
      | .okUser _ =>
          match inner with
          | .ok r => .ok r
          | .error _ => .ok authFailed401

/-- The boundary pipeline as mounted on `/api/*` paths: `errorMiddleware`
outermost, `headersMiddleware`, then `authMiddleware`, then the downstream
stages. -/
def apiPipeline (path method : String) (ctxUser : Option String)
    (authHeader : Option String) (provider : String → ProviderResult)
    (inner : Except Thrown Resp) : List LogEntry × Resp :=
  errorLayer path method ctxUser
    (headersLayer authHeader (authLayer path authHeader provider inner))

/-! ### Route dispatch under `/api/bookmarks`

`index.ts` lines 34-36 mount, in order: `bookmarksIndex` (GET `/`),
`bookmarksById` (GET `/:id`), `bookmarksTags` (GET `/` under
`/api/bookmarks/tags`).  Hono runs the matching handlers in registration
order and a returned response short-circuits the rest, so the first
registered pattern that matches a path decides the request. -/

/-- The GET endpoints mounted under `/api/bookmarks`. -/
inductive BookmarksRoute where
  | listAll
  | byId (id : String)
  | tagsIndex
deriving DecidableEq

/-- Match `/api/bookmarks/:id`: one further nonempty segment with no slash. -/
def matchByIdSeg (path : String) : Option String :=
  if strStartsWith path "/api/bookmarks/" then
    let rest := path.data.drop 15
    if rest ≠ [] && !rest.contains '/' then some (String.mk rest) else none
  else none

/-- Dispatch of a GET under `/api/bookmarks`, trying the mounted patterns in
registration order: `/api/bookmarks` (list), then `/api/bookmarks/:id`, then
`/api/bookmarks/tags` — which the `/:id` pattern therefore shadows. -/
def dispatchGet (path : String) : Option BookmarksRoute :=
  if path = "/api/bookmarks" then some .listAll
  else
    match matchByIdSeg path with
    | some seg => some (.byId seg)
    | none => if path = "/api/bookmarks/tags" then some .tagsIndex else none

/-- The GET `/api/bookmarks/:id` handler (store success path): 400
`Invalid bookmark ID` when `validateId` rejects the id, 404 when no active
owned row matches, otherwise 200 with the record. -/
def getByIdRoute (store : List Bookmark) (id : String) : Nat × Option Bookmark :=
  if isUuidLike id then
    match getBookmarkById store id with
    | none => (404, none)
    | some b => (200, some b)
  else (400, none)

/-! ### Spec-side definition for the owner-scoping comparison

§1 and §4.5 of the specification describe every service operation as itself
restricted by an owner predicate equal to the caller's identifier.  The
following definition is written from those words, to be compared with the
source's `listBookmarks`. -/

/-- Modelled from the spec: `listBookmarks` as §4.5 describes it, with the
service itself restricting the rows to `user_id = caller` before its other
filters. -/
def listBookmarksOwnerScoped (userId : String) (store : List Bookmark)
    (q : BookmarkQuery) : ListResult :=
  listBookmarks (store.filter (fun b => b.user_id = userId)) q

/-- Reassign the owner identifier of a row (every other field kept).  A
service operation whose result is equivariant under every such reassignment
issues queries that never consult the owner identifier. -/
def setOwner (f : String → String) (b : Bookmark) : Bookmark :=
  { b with user_id := f b.user_id }

/-! ## Theorems -/

/-! ### Helper lemmas: owner-blindness of the issued queries -/

lemma filter_map_setOwner (f : String → String) (p : Bookmark → Bool)
    (hp : (fun b => p (setOwner f b)) = p) (store : List Bookmark) :
    (store.map (setOwner f)).filter p = (store.filter p).map (setOwner f) := by
  rw [List.filter_map]
  have hc : p ∘ setOwner f = p := hp
  rw [hc]

lemma find?_map_setOwner (f : String → String) (p : Bookmark → Bool)
    (hp : (fun b => p (setOwner f b)) = p) (store : List Bookmark) :
    (store.map (setOwner f)).find? p = (store.find? p).map (setOwner f) := by
  rw [List.find?_map]
  have hc : p ∘ setOwner f = p := hp
  rw [hc]

lemma sortByCreatedDesc_map_setOwner (f : String → String) (store : List Bookmark) :
    sortByCreatedDesc (store.map (setOwner f)) =
      (sortByCreatedDesc store).map (setOwner f) :=
  (List.map_insertionSort (fun a b : Bookmark => b.created_at ≤ a.created_at)
    (fun a b : Bookmark => b.created_at ≤ a.created_at) (setOwner f) store
    (fun _ _ _ _ => Iff.rfl)).symm

lemma cursorCreatedAt_map_setOwner (f : String → String) (store : List Bookmark)
    (cur : String) :
    cursorCreatedAt (store.map (setOwner f)) cur = cursorCreatedAt store cur := by
  unfold cursorCreatedAt
  rw [find?_map_setOwner f (fun b => decide (b.id = cur)) rfl]
  cases store.find? (fun b => decide (b.id = cur)) <;> rfl

lemma applyTagFilter_map_setOwner (f : String → String) (tg : Option String)
    (rows : List Bookmark) :
    applyTagFilter tg (rows.map (setOwner f)) = (applyTagFilter tg rows).map (setOwner f) := by
  cases tg with
  | none => rfl
  | some t => exact filter_map_setOwner f (fun b => rowHasTag b t) rfl rows

lemma applyCursorFilter_map_setOwner (f : String → String) (store : List Bookmark)
    (cur : Option String) (rows : List Bookmark) :
    applyCursorFilter (store.map (setOwner f)) cur (rows.map (setOwner f)) =
      (applyCursorFilter store cur rows).map (setOwner f) := by
  cases cur with
  | none => rfl
  | some c =>
      cases h : cursorCreatedAt store c with
      | none =>
          have h2 : cursorCreatedAt (store.map (setOwner f)) c = none := by
            rw [cursorCreatedAt_map_setOwner, h]
          simp [applyCursorFilter, h, h2]
      | some t =>
          have h2 : cursorCreatedAt (store.map (setOwner f)) c = some t := by
            rw [cursorCreatedAt_map_setOwner, h]
          simp only [applyCursorFilter, Option.bind, h, h2]
          exact filter_map_setOwner f (fun b => decide (b.created_at < t)) rfl rows

lemma listRows_map_setOwner (f : String → String) (store : List Bookmark)
    (q : BookmarkQuery) :
    listRows (store.map (setOwner f)) q = (listRows store q).map (setOwner f) := by
  unfold listRows
  rw [filter_map_setOwner f (fun b => decide (b.deleted_at = none)) rfl,
    applyTagFilter_map_setOwner, applyCursorFilter_map_setOwner]

lemma listBookmarks_map_setOwner (f : String → String) (store : List Bookmark)
    (q : BookmarkQuery) :
    listBookmarks (store.map (setOwner f)) q =
      { bookmarks := (listBookmarks store q).bookmarks.map (setOwner f)
        hasMore := (listBookmarks store q).hasMore
        cursor := (listBookmarks store q).cursor } := by
  have hS : sortByCreatedDesc (listRows (store.map (setOwner f)) q) =
      (sortByCreatedDesc (listRows store q)).map (setOwner f) := by
    rw [listRows_map_setOwner, sortByCreatedDesc_map_setOwner]
  have hid : ((fun b : Bookmark => b.id) ∘ setOwner f) = (fun b : Bookmark => b.id) :=
    funext (fun _ => rfl)
  by_cases h : q.limit.getD 20 < (sortByCreatedDesc (listRows store q)).length
  · simp [listBookmarks, hS, ← List.map_take, List.length_map, h,
      List.getLast?_map, Option.map_map, hid]
  · simp [listBookmarks, hS, ← List.map_take, List.length_map, h]

lemma getBookmarkById_map_setOwner (f : String → String) (store : List Bookmark)
    (i : String) :
    getBookmarkById (store.map (setOwner f)) i =
      (getBookmarkById store i).map (setOwner f) :=
  find?_map_setOwner f (fun b => b.id = i && b.deleted_at = none) rfl store

lemma getUserTags_map_setOwner (f : String → String) (store : List Bookmark) :
    getUserTags (store.map (setOwner f)) = getUserTags store := by
  unfold getUserTags
  simp only []
  rw [filter_map_setOwner f (fun b => b.deleted_at = none && b.tags ≠ none) rfl,
    List.flatMap_map]
  rfl

lemma deleteBookmark_map_setOwner (f : String → String) (store : List Bookmark)
    (i : String) (now : Nat) :
    deleteBookmark (store.map (setOwner f)) i now =
      ((deleteBookmark store i now).1,
        ((deleteBookmark store i now).2).map (setOwner f)) := by
  unfold deleteBookmark
  simp only [List.map_map]
  refine congrArg (Prod.mk true) ?_
  apply List.map_congr_left
  intro b _
  by_cases h1 : b.id = i
  · by_cases h2 : b.deleted_at = none
    · simp [Function.comp, setOwner, h1, h2]
    · simp [Function.comp, setOwner, h1, h2]
  · simp [Function.comp, setOwner, h1]

lemma updateBookmark_map_setOwner (f : String → String) (store : List Bookmark)
    (i : String) (d : UpdateBookmark) (now : Nat) :
    updateBookmark (store.map (setOwner f)) i d now =
      (((updateBookmark store i d now).1).map (setOwner f),
        ((updateBookmark store i d now).2).map (setOwner f)) := by
  unfold updateBookmark
  rw [find?_map_setOwner f (fun b => b.id = i && b.deleted_at = none) rfl]
  cases store.find? (fun b => b.id = i && b.deleted_at = none) with
  | none => rfl
  | some b =>
      simp only [Option.map_some, List.map_map]
      refine congrArg₂ Prod.mk rfl ?_
      apply List.map_congr_left
      intro r _
      by_cases h1 : r.id = i
      · by_cases h2 : r.deleted_at = none
        · simp [Function.comp, setOwner, applyUpdate, h1, h2]
        · simp [Function.comp, setOwner, h1, h2]
      · simp [Function.comp, setOwner, h1]

/-- C1 as stated is false: the service's queries carry no owner predicate.
With a table holding a single active record owned by `alice`, the list query
issued by a service acting for `bob` — which, per the claim, would restrict
rows to `user_id = bob` — returns alice's record, so the code's
`listBookmarks` differs from the owner-scoped operation the spec describes;
`getBookmarkById` likewise returns the foreign-owned record. -/
theorem claim_C1_counterexample :
    listBookmarks
        [{ id := "a1", user_id := "alice", url := "https://a.example", title := "A",
           description := none, tags := none, created_at := 1, updated_at := 1,
           deleted_at := none }]
        { tag := none, cursor := none, limit := some 20 } ≠
      listBookmarksOwnerScoped "bob"
        [{ id := "a1", user_id := "alice", url := "https://a.example", title := "A",
           description := none, tags := none, created_at := 1, updated_at := 1,
           deleted_at := none }]
        { tag := none, cursor := none, limit := some 20 } ∧
    (listBookmarks
        [{ id := "a1", user_id := "alice", url := "https://a.example", title := "A",
           description := none, tags := none, created_at := 1, updated_at := 1,
           deleted_at := none }]
        { tag := none, cursor := none, limit := some 20 }).bookmarks =
      [{ id := "a1", user_id := "alice", url := "https://a.example", title := "A",
         description := none, tags := none, created_at := 1, updated_at := 1,
         deleted_at := none }] ∧
    getBookmarkById
        [{ id := "a1", user_id := "alice", url := "https://a.example", title := "A",
           description := none, tags := none, created_at := 1, updated_at := 1,
           deleted_at := none }] "a1" =
      some { id := "a1", user_id := "alice", url := "https://a.example", title := "A",
             description := none, tags := none, created_at := 1, updated_at := 1,
             deleted_at := none } := by
  refine ⟨?_, by decide, by decide⟩
  decide

/-- C1 amended: only `createBookmark` references the caller's owner
identifier (binding it onto the inserted row); the list, get-by-id, update,
delete and tag-listing queries apply no owner predicate of their own — their
results are equivariant under every reassignment `setOwner f` of the rows'
owner identifiers, so the records read or mutated are restricted only by id,
deletion-marker, tag and creation-time conditions, with owner scoping
delegated entirely to the store's row-level security. -/
theorem claim_C1_amended (f : String → String) (store : List Bookmark)
    (q : BookmarkQuery) (i j : String) (d : UpdateBookmark) (c : CreateBookmark)
    (uid newId : String) (now : Nat) :
    listBookmarks (store.map (setOwner f)) q =
      { bookmarks := (listBookmarks store q).bookmarks.map (setOwner f)
        hasMore := (listBookmarks store q).hasMore
        cursor := (listBookmarks store q).cursor } ∧
    getBookmarkById (store.map (setOwner f)) i =
      (getBookmarkById store i).map (setOwner f) ∧
    getUserTags (store.map (setOwner f)) = getUserTags store ∧
    deleteBookmark (store.map (setOwner f)) j now =
      ((deleteBookmark store j now).1,
        ((deleteBookmark store j now).2).map (setOwner f)) ∧
    updateBookmark (store.map (setOwner f)) j d now =
      (((updateBookmark store j d now).1).map (setOwner f),
        ((updateBookmark store j d now).2).map (setOwner f)) ∧
    (createBookmark uid c newId now store).1.user_id = uid :=
  ⟨listBookmarks_map_setOwner f store q, getBookmarkById_map_setOwner f store i,
    getUserTags_map_setOwner f store, deleteBookmark_map_setOwner f store j now,
    updateBookmark_map_setOwner f store j d now, rfl⟩

/-! ### Sample rows for concrete instantiations -/

/-- An active sample row. -/
def sampleActive : Bookmark :=
  { id := "a1", user_id := "u", url := "https://a.example", title := "A",
    description := none, tags := some ["alpha"], created_at := 1, updated_at := 1,
    deleted_at := none }

/-- A soft-deleted sample row. -/
def sampleDeleted : Bookmark :=
  { id := "d1", user_id := "u", url := "https://d.example", title := "D",
    description := none, tags := some ["zeta"], created_at := 2, updated_at := 2,
    deleted_at := some 9 }

/-! ### Helper lemmas: read paths and tag aggregation -/

lemma applyTagFilter_subset (tg : Option String) (rows : List Bookmark) :
    applyTagFilter tg rows ⊆ rows := by
  cases tg with
  | none => exact fun _ h => h
  | some t => exact fun _ hx => List.mem_of_mem_filter hx

lemma applyCursorFilter_subset (store : List Bookmark) (cur : Option String)
    (rows : List Bookmark) : applyCursorFilter store cur rows ⊆ rows := by
  unfold applyCursorFilter
  cases cur.bind (cursorCreatedAt store) with
  | none => exact fun _ h => h
  | some t => exact fun _ hx => List.mem_of_mem_filter hx

lemma listRows_subset_activeFilter (store : List Bookmark) (q : BookmarkQuery) :
    listRows store q ⊆ store.filter (fun b => b.deleted_at = none) :=
  (applyCursorFilter_subset store q.cursor _).trans (applyTagFilter_subset q.tag _)

lemma mem_listBookmarks_active (store : List Bookmark) (q : BookmarkQuery)
    (b : Bookmark) (hmem : b ∈ (listBookmarks store q).bookmarks) :
    b.deleted_at = none := by
  have hsub : (listBookmarks store q).bookmarks ⊆
      sortByCreatedDesc (listRows store q) := by
    unfold listBookmarks
    simp only []
    split
    · exact (List.take_subset _ _).trans (List.take_subset _ _)
    · exact List.take_subset _ _
  have h1 : b ∈ listRows store q :=
    (List.perm_insertionSort _ _).subset (hsub hmem)
  have h2 : b ∈ store.filter (fun r => r.deleted_at = none) :=
    listRows_subset_activeFilter store q h1
  simpa using List.of_mem_filter h2

lemma mem_dedupFirst {s : String} : ∀ {l : List String}, s ∈ dedupFirst l ↔ s ∈ l := by
  intro l
  induction l with
  | nil => simp [dedupFirst]
  | cons a l ih =>
      by_cases hs : s = a
      · subst hs; simp [dedupFirst]
      · simp [dedupFirst, hs, List.mem_filter, ih]

lemma nodup_dedupFirst : ∀ l : List String, (dedupFirst l).Nodup := by
  intro l
  induction l with
  | nil => simp [dedupFirst]
  | cons a l ih =>
      refine List.Nodup.cons ?_ (List.Nodup.filter _ ih)
      intro hmem
      have h2 := (List.mem_filter.mp hmem).2
      simp at h2

lemma mem_sortStrings {s : String} {l : List String} :
    s ∈ sortStrings l ↔ s ∈ l :=
  (List.perm_insertionSort _ l).mem_iff

lemma mem_getUserTags (store : List Bookmark) (s : String) :
    s ∈ getUserTags store ↔
      ∃ b, b ∈ store ∧ b.deleted_at = none ∧ s ∈ b.tags.getD [] := by
  unfold getUserTags
  simp only []
  rw [mem_sortStrings, mem_dedupFirst, List.mem_flatMap]
  constructor
  · rintro ⟨b, hb, hs⟩
    have h2 := List.mem_filter.mp hb
    have h3 : b.deleted_at = none ∧ ¬b.tags = none := by simpa using h2.2
    exact ⟨b, h2.1, h3.1, hs⟩
  · rintro ⟨b, hb, hdel, hs⟩
    have htags : b.tags ≠ none := by
      intro hnone
      rw [hnone] at hs
      simp at hs
    exact ⟨b, List.mem_filter.mpr ⟨hb, by simp [hdel, htags]⟩, hs⟩

/-- C6: a record with a non-null deletion marker is excluded from every read
path as if it did not exist — it never appears in a list page; get-by-id
reports not-found whenever every row with the requested id is soft-deleted;
and the tag aggregation over the table equals the aggregation over the active
rows alone, so deleted records' tags contribute nothing. -/
theorem claim_C6_soft_delete_excluded (store : List Bookmark) (q : BookmarkQuery)
    (b : Bookmark) (i : String) (hb : b.deleted_at ≠ none) :
    b ∉ (listBookmarks store q).bookmarks ∧
    ((∀ r ∈ store, r.id = i → r.deleted_at ≠ none) →
      getBookmarkById store i = none) ∧
    getUserTags store = getUserTags (store.filter (fun r => r.deleted_at = none)) := by
  refine ⟨fun hmem => hb (mem_listBookmarks_active store q b hmem), ?_, ?_⟩
  · intro h
    apply List.find?_eq_none.mpr
    intro r hr
    simp only [Bool.and_eq_true, decide_eq_true_eq, not_and]
    intro hid hdel
    exact h r hr hid hdel
  · unfold getUserTags
    simp only []
    rw [List.filter_filter]
    have hsame : List.filter
        (fun a => (decide (a.deleted_at = none) && decide (a.tags ≠ none)) &&
          decide (a.deleted_at = none)) store =
        List.filter (fun a => decide (a.deleted_at = none) && decide (a.tags ≠ none))
          store :=
      List.filter_congr (fun a _ => by by_cases hd : a.deleted_at = none <;> simp [hd])
    rw [hsame]

/-- C6, at a concrete input: a table holding one active and one soft-deleted
record; the deleted one is absent from every read path. -/
theorem claim_C6_witness :
    sampleDeleted ∉
      (listBookmarks [sampleActive, sampleDeleted]
        { tag := none, cursor := none, limit := some 20 }).bookmarks ∧
    ((∀ r ∈ [sampleActive, sampleDeleted], r.id = "d1" → r.deleted_at ≠ none) →
      getBookmarkById [sampleActive, sampleDeleted] "d1" = none) ∧
    getUserTags [sampleActive, sampleDeleted] =
      getUserTags ([sampleActive, sampleDeleted].filter (fun r => r.deleted_at = none)) :=
  claim_C6_soft_delete_excluded [sampleActive, sampleDeleted]
    { tag := none, cursor := none, limit := some 20 } sampleDeleted "d1" (by decide)

/-- C10 is violated by the code's routing: `bookmarksById` (pattern `/:id`)
is mounted at `index.ts` line 35, before the `/api/bookmarks/tags` mount at
line 36, and Hono runs the first matching handler; `tags` matches the `:id`
parameter, fails the uuid check in `validateId`, and the request is answered
400 `Invalid bookmark ID` — the tags handler is unreachable over HTTP and no
tag-listing request ever receives 200 with the tag list.  Evaluated at the
failing input, the tag-listing path itself. -/
theorem claim_C10_tags_shadowed :
    dispatchGet "/api/bookmarks/tags" = some (BookmarksRoute.byId "tags") ∧
    dispatchGet "/api/bookmarks/tags" ≠ some BookmarksRoute.tagsIndex ∧
    isUuidLike "tags" = false ∧
    (getByIdRoute [sampleActive] "tags").1 = 400 ∧
    (getByIdRoute [] "tags").1 = 400 := by
  refine ⟨by decide, by decide, by decide, by decide, by decide⟩

/-- The tags handler itself (were it reachable) computes what the claim
describes: a 200 with the sorted, duplicate-free sequence of exactly the tag
strings occurring across the caller's active records.  Kept as a property of
the service function, in support of the routing divergence above. -/
theorem tagsHandler_sorted_dedup_complete (store : List Bookmark) :
    (tagsRoute (.ok store)).1 = 200 ∧
    List.Sorted (fun a b : String => a ≤ b) (tagsRoute (.ok store)).2 ∧
    (tagsRoute (.ok store)).2.Nodup ∧
    ∀ s : String, s ∈ (tagsRoute (.ok store)).2 ↔
      ∃ b, b ∈ store ∧ b.deleted_at = none ∧ s ∈ b.tags.getD [] := by
  refine ⟨rfl, ?_, ?_, fun s => mem_getUserTags store s⟩
  · exact List.sorted_insertionSort _ _
  · exact ((List.perm_insertionSort _ _).nodup_iff).mpr (nodup_dedupFirst _)

/-! ### Helper lemmas: pagination -/

instance : IsTotal Bookmark (fun a b => b.created_at ≤ a.created_at) :=
  ⟨fun a b => le_total b.created_at a.created_at⟩

instance : IsTrans Bookmark (fun a b => b.created_at ≤ a.created_at) :=
  ⟨fun _ _ _ hab hbc => le_trans hbc hab⟩

instance : IsAntisymm Bookmark (fun a b => b.created_at < a.created_at) :=
  ⟨fun _ _ h1 h2 => absurd (lt_trans h1 h2) (lt_irrefl _)⟩

/-- Strictly descending creation times. -/
def StrictDesc (l : List Bookmark) : Prop :=
  l.Pairwise (fun a b => b.created_at < a.created_at)

lemma sortByCreatedDesc_perm (store : List Bookmark) :
    (sortByCreatedDesc store).Perm store :=
  List.perm_insertionSort _ store

lemma sortByCreatedDesc_sorted (store : List Bookmark) :
    List.Sorted (fun a b => b.created_at ≤ a.created_at) (sortByCreatedDesc store) :=
  List.sorted_insertionSort _ store

lemma strictDesc_of_sorted_nodup {l : List Bookmark}
    (hs : List.Sorted (fun a b => b.created_at ≤ a.created_at) l)
    (hn : (l.map Bookmark.created_at).Nodup) : StrictDesc l := by
  have hne : l.Pairwise (fun a b => a.created_at ≠ b.created_at) :=
    List.pairwise_map.mp hn
  exact (hs.and hne).imp (fun h => lt_of_le_of_ne h.1 (fun he => h.2 he.symm))

lemma strictDesc_sortByCreatedDesc {store : List Bookmark}
    (hct : (store.map Bookmark.created_at).Nodup) :
    StrictDesc (sortByCreatedDesc store) := by
  refine strictDesc_of_sorted_nodup (sortByCreatedDesc_sorted store) ?_
  exact (((sortByCreatedDesc_perm store).map Bookmark.created_at).nodup_iff).mpr hct

lemma sortByCreatedDesc_filter {store : List Bookmark}
    (hct : (store.map Bookmark.created_at).Nodup) (p : Bookmark → Bool) :
    sortByCreatedDesc (store.filter p) = (sortByCreatedDesc store).filter p := by
  have hperm : (sortByCreatedDesc (store.filter p)).Perm
      ((sortByCreatedDesc store).filter p) :=
    (sortByCreatedDesc_perm _).trans ((sortByCreatedDesc_perm store).filter p).symm
  have hstrictL : StrictDesc (sortByCreatedDesc (store.filter p)) := by
    refine strictDesc_sortByCreatedDesc ?_
    exact ((List.filter_sublist store).map Bookmark.created_at).nodup hct
  have hstrictR : StrictDesc ((sortByCreatedDesc store).filter p) :=
    (strictDesc_sortByCreatedDesc hct).filter p
  exact List.eq_of_perm_of_sorted hperm hstrictL hstrictR

lemma cursorCreatedAt_of_mem {store : List Bookmark} {dl : Bookmark}
    (hid : (store.map Bookmark.id).Nodup) (hmem : dl ∈ store) :
    cursorCreatedAt store dl.id = some dl.created_at := by
  unfold cursorCreatedAt
  cases hf : store.find? (fun b => decide (b.id = dl.id)) with
  | none =>
      exfalso
      exact (List.find?_eq_none.mp hf) dl hmem (by simp)
  | some b =>
      have hb1 : b ∈ store := List.mem_of_find?_eq_some hf
      have hb2 : b.id = dl.id := by simpa using List.find?_some hf
      have : b = dl := List.inj_on_of_nodup_map hid hb1 hmem hb2
      simp [this]

lemma strictDesc_filter_done {S done rest : List Bookmark}
    (hstrict : StrictDesc S) (hsplit : S = done ++ rest) (hne : done ≠ []) :
    S.filter (fun b => b.created_at < (done.getLast hne).created_at) = rest := by
  subst hsplit
  rw [List.filter_append]
  have hdone : List.filter
      (fun b => b.created_at < (done.getLast hne).created_at) done = [] := by
    rw [List.filter_eq_nil_iff]
    intro b hb
    have hsd : StrictDesc done :=
      List.Pairwise.sublist (List.IsPrefix.sublist (List.prefix_append done rest)) hstrict
    have hb' : b ∈ done.dropLast ++ [done.getLast hne] := by
      rw [List.dropLast_concat_getLast hne]
      exact hb
    have hsd' : StrictDesc (done.dropLast ++ [done.getLast hne]) := by
      rw [List.dropLast_concat_getLast hne]
      exact hsd
    rcases List.mem_append.mp hb' with hbd | hbl
    · have hlt : (done.getLast hne).created_at < b.created_at := by
        have h3 := (List.pairwise_append.mp hsd').2.2
        exact h3 b hbd _ (by simp)
      simp only [decide_eq_true_eq, not_lt]
      omega
    · have : b = done.getLast hne := by simpa using hbl
      subst this
      simp
  have hrest : List.filter
      (fun b => b.created_at < (done.getLast hne).created_at) rest = rest := by
    rw [List.filter_eq_self]
    intro b hb
    have h3 := (List.pairwise_append.mp hstrict).2.2
    exact by simpa using h3 _ (List.getLast_mem hne) b hb
  rw [hdone, hrest, List.nil_append]

lemma list_step (store : List Bookmark) (L : Nat) (done rest : List Bookmark)
    (cur : Option String)
    (hactive : ∀ b ∈ store, b.deleted_at = none)
    (hid : (store.map Bookmark.id).Nodup)
    (hct : (store.map Bookmark.created_at).Nodup)
    (hsplit : sortByCreatedDesc store = done ++ rest)
    (hcur : (done = [] ∧ cur = none) ∨
      ∃ hne : done ≠ [], cur = some ((done.getLast hne).id)) :
    listBookmarks store { tag := none, cursor := cur, limit := some L } =
      { bookmarks := if L < rest.length then rest.take L else rest
        hasMore := decide (L < rest.length)
        cursor := if L < rest.length then
            (rest.take L).getLast?.map (fun b => b.id)
          else none } := by
  have hfilter : store.filter (fun b => b.deleted_at = none) = store :=
    List.filter_eq_self.mpr (fun b hb => by simpa using hactive b hb)
  have hrows : sortByCreatedDesc
      (listRows store { tag := none, cursor := cur, limit := some L }) = rest := by
    rcases hcur with ⟨hdone, hcn⟩ | ⟨hne, hcs⟩
    · subst hcn
      have hlr : listRows store { tag := none, cursor := none, limit := some L } = store := by
        unfold listRows applyTagFilter applyCursorFilter
        simp [hfilter]
      rw [hlr, hsplit, hdone, List.nil_append]
    · subst hcs
      have hdl : done.getLast hne ∈ store := by
        have h1 : done.getLast hne ∈ done ++ rest :=
          List.mem_append.mpr (Or.inl (List.getLast_mem hne))
        rw [← hsplit] at h1
        exact (sortByCreatedDesc_perm store).subset h1
      have hc := cursorCreatedAt_of_mem hid hdl
      have hlr : listRows store
          { tag := none, cursor := some ((done.getLast hne).id), limit := some L } =
          store.filter (fun b => b.created_at < (done.getLast hne).created_at) := by
        unfold listRows applyTagFilter applyCursorFilter
        simp [hfilter, hc]
      rw [hlr, sortByCreatedDesc_filter hct]
      exact strictDesc_filter_done (strictDesc_sortByCreatedDesc hct) hsplit hne
  by_cases hlt : L < rest.length
  · have hfl : ((rest.take (L + 1)).length) = L + 1 :=
      List.length_take_of_le (by omega)
    have hmore : (decide (L < (rest.take (L + 1)).length)) = true := by
      rw [hfl]; simp
    simp only [listBookmarks, hrows, Option.getD_some, hmore, if_true, List.take_take]
    have hmin : min L (L + 1) = L := by omega
    simp [hmin, hlt, hfl]
  · have htk : rest.take (L + 1) = rest := List.take_of_length_le (by omega)
    simp only [listBookmarks, hrows, Option.getD_some, htk]
    have hmore : (decide (L < rest.length)) = false := by simpa using hlt
    simp [hmore, hlt]

/-- The pages a faithful cursor walk should produce from the sorted active
suffix `rest`: full pages of `L` rows while more than `L` rows remain, then a
final partial page with no cursor. -/
def chunkPages (L : Nat) : Nat → List Bookmark → List ListResult
  | 0, _ => []
  | fuel + 1, rest =>
      if L < rest.length then
        { bookmarks := rest.take L
          hasMore := true
          cursor := (rest.take L).getLast?.map (fun b => b.id) } ::
          chunkPages L fuel (rest.drop L)
      else [{ bookmarks := rest, hasMore := false, cursor := none }]

lemma paginateAux_eq_chunkPages (store : List Bookmark) (L : Nat)
    (hactive : ∀ b ∈ store, b.deleted_at = none)
    (hid : (store.map Bookmark.id).Nodup)
    (hct : (store.map Bookmark.created_at).Nodup)
    (hL : 1 ≤ L) :
    ∀ fuel done rest cur,
      sortByCreatedDesc store = done ++ rest →
      ((done = [] ∧ cur = none) ∨
        ∃ hne : done ≠ [], cur = some ((done.getLast hne).id)) →
      rest.length < fuel →
      paginateAux store L fuel cur = chunkPages L fuel rest := by
  intro fuel
  induction fuel with
  | zero => intro done rest cur _ _ hf; omega
  | succ fuel ih =>
      intro done rest cur hsplit hcur hf
      have hstep := list_step store L done rest cur hactive hid hct hsplit hcur
      by_cases hlt : L < rest.length
      · have htkne : rest.take L ≠ [] := by
          have : (rest.take L).length = L := List.length_take_of_le (by omega)
          intro hnil
          rw [hnil] at this
          simp at this
          omega
        have hglast : (rest.take L).getLast? =
            some ((rest.take L).getLast htkne) :=
          List.getLast?_eq_getLast _ htkne
        have hpag : paginateAux store L (fuel + 1) cur =
            { bookmarks := rest.take L, hasMore := true,
              cursor := (rest.take L).getLast?.map (fun b => b.id) } ::
              paginateAux store L fuel
                (some ((rest.take L).getLast htkne).id) := by
          simp only [paginateAux]
          rw [hstep]
          simp [hlt, hglast]
        have hchunk : chunkPages L (fuel + 1) rest =
            { bookmarks := rest.take L, hasMore := true,
              cursor := (rest.take L).getLast?.map (fun b => b.id) } ::
              chunkPages L fuel (rest.drop L) := by
          simp only [chunkPages]
          simp [hlt]
        rw [hpag, hchunk]
        congr 1
        have hdone' : done ++ rest.take L ≠ [] := by
          intro hnil
          rcases List.append_eq_nil.mp hnil with ⟨_, h2⟩
          exact htkne h2
        have hlast' : (done ++ rest.take L).getLast hdone' =
            (rest.take L).getLast htkne := by
          rw [List.getLast_append]
          simp [htkne]
        refine ih (done ++ rest.take L) (rest.drop L)
          (some ((rest.take L).getLast htkne).id) ?_ ?_ ?_
        · rw [hsplit, List.append_assoc, List.take_append_drop]
        · exact Or.inr ⟨hdone', by rw [hlast']⟩
        · rw [List.length_drop]
          omega
      · simp only [paginateAux]
        rw [hstep]
        simp only [chunkPages]
        simp [hlt]

lemma chunkPages_join (L : Nat) (hL : 1 ≤ L) :
    ∀ fuel rest, rest.length < fuel →
      ((chunkPages L fuel rest).map ListResult.bookmarks).flatten = rest := by
  intro fuel
  induction fuel with
  | zero => intro rest hf; omega
  | succ fuel ih =>
      intro rest hf
      by_cases hlt : L < rest.length
      · simp only [chunkPages, hlt, if_true, List.map_cons, List.flatten_cons]
        rw [ih (rest.drop L) (by rw [List.length_drop]; omega)]
        exact List.take_append_drop L rest
      · simp [chunkPages, hlt]

lemma chunkPages_ne_nil (L : Nat) (fuel : Nat) (rest : List Bookmark)
    (hf : rest.length < fuel) : chunkPages L fuel rest ≠ [] := by
  cases fuel with
  | zero => omega
  | succ fuel =>
      by_cases hlt : L < rest.length <;> simp [chunkPages, hlt]

lemma chunkPages_count (L : Nat) (hL : 1 ≤ L) :
    ∀ fuel rest, rest.length < fuel → rest ≠ [] →
      (chunkPages L fuel rest).length = (rest.length + L - 1) / L := by
  intro fuel
  induction fuel with
  | zero => intro rest hf; omega
  | succ fuel ih =>
      intro rest hf hne
      have hrl : 1 ≤ rest.length := List.length_pos.mpr hne
      by_cases hlt : L < rest.length
      · have hdl : (rest.drop L).length = rest.length - L := List.length_drop L rest
        have hrec := ih (rest.drop L) (by omega)
          (by
            intro hnil
            rw [hnil] at hdl
            simp at hdl
            omega)
        simp only [chunkPages, hlt, if_true, List.length_cons]
        rw [hrec, hdl]
        have he1 : rest.length - L + L - 1 = rest.length - 1 := by omega
        have he2 : rest.length + L - 1 = (rest.length - 1) + L := by omega
        rw [he1, he2, Nat.add_div_right _ (by omega)]
      · simp only [chunkPages, hlt, if_false, List.length_singleton]
        have h1 : 1 * L ≤ rest.length + L - 1 := by omega
        have h2 : rest.length + L - 1 < (1 + 1) * L := by omega
        exact (Nat.div_eq_of_lt_le h1 h2).symm

lemma chunkPages_page_le (L : Nat) :
    ∀ fuel rest, ∀ p ∈ chunkPages L fuel rest, p.bookmarks.length ≤ L := by
  intro fuel
  induction fuel with
  | zero => intro rest p hp; simp [chunkPages] at hp
  | succ fuel ih =>
      intro rest p hp
      by_cases hlt : L < rest.length
      · simp only [chunkPages, hlt, if_true, List.mem_cons] at hp
        rcases hp with rfl | hp
        · simp [List.length_take]
        · exact ih (rest.drop L) p hp
      · simp only [chunkPages, hlt, if_false, List.mem_singleton] at hp
        subst hp
        simp only []
        omega

lemma chunkPages_flags (L : Nat) (hL : 1 ≤ L) :
    ∀ fuel rest, rest.length < fuel →
      ∀ k p, (chunkPages L fuel rest)[k]? = some p →
        (k + 1 < (chunkPages L fuel rest).length →
          p.hasMore = true ∧ p.cursor ≠ none) ∧
        (k + 1 = (chunkPages L fuel rest).length →
          p.hasMore = false ∧ p.cursor = none) := by
  intro fuel
  induction fuel with
  | zero => intro rest hf; omega
  | succ fuel ih =>
      intro rest hf k p hk
      by_cases hlt : L < rest.length
      · have htkne : rest.take L ≠ [] := by
          intro hnil
          have := List.length_take_of_le (l := rest) (n := L) (by omega)
          rw [hnil] at this
          simp at this
          omega
        have hdf : (rest.drop L).length < fuel := by
          rw [List.length_drop]; omega
        have htne := chunkPages_ne_nil L fuel (rest.drop L) hdf
        simp only [chunkPages, hlt, if_true] at hk ⊢
        cases k with
        | zero =>
            simp only [List.getElem?_cons_zero, Option.some_inj] at hk
            subst hk
            constructor
            · intro _
              refine ⟨rfl, ?_⟩
              rw [List.getLast?_eq_getLast _ htkne]
              simp
            · intro hlen
              exfalso
              have : chunkPages L fuel (rest.drop L) ≠ [] := htne
              have hl1 : 1 ≤ (chunkPages L fuel (rest.drop L)).length :=
                List.length_pos.mpr this
              simp only [List.length_cons] at hlen
              omega
        | succ k =>
            simp only [List.getElem?_cons_succ] at hk
            have := ih (rest.drop L) hdf k p hk
            simp only [List.length_cons]
            constructor
            · intro h
              exact this.1 (by omega)
            · intro h
              exact this.2 (by omega)
      · simp only [chunkPages, hlt, if_false] at hk ⊢
        cases k with
        | zero =>
            simp only [List.getElem?_cons_zero, Option.some_inj] at hk
            subst hk
            exact ⟨fun h => by simp at h, fun _ => ⟨rfl, rfl⟩⟩
        | succ k =>
            simp at hk

/-- Three active sample rows with pairwise-distinct creation times. -/
def sampleB1 : Bookmark :=
  { id := "b1", user_id := "u", url := "https://1.example", title := "B1",
    description := none, tags := none, created_at := 10, updated_at := 10,
    deleted_at := none }

/-- Second sample row. -/
def sampleB2 : Bookmark :=
  { id := "b2", user_id := "u", url := "https://2.example", title := "B2",
    description := none, tags := none, created_at := 20, updated_at := 20,
    deleted_at := none }

/-- Third sample row. -/
def sampleB3 : Bookmark :=
  { id := "b3", user_id := "u", url := "https://3.example", title := "B3",
    description := none, tags := none, created_at := 30, updated_at := 30,
    deleted_at := none }

/-- Two active rows sharing one creation timestamp (a tie). -/
def tieRowA : Bookmark :=
  { id := "t1", user_id := "u", url := "https://ta.example", title := "TA",
    description := none, tags := none, created_at := 5, updated_at := 5,
    deleted_at := none }

/-- The other tied row. -/
def tieRowB : Bookmark :=
  { id := "t2", user_id := "u", url := "https://tb.example", title := "TB",
    description := none, tags := none, created_at := 5, updated_at := 5,
    deleted_at := none }

/-- C5 as stated is false when two active records share a creation
timestamp: with two tied records and page size 1, the first page returns one
of them and a cursor, and the second call filters `created_at <` the cursor
row's timestamp, which excludes the tied record as well — the walk ends
having visited only one of the two records, not a partition. -/
theorem claim_C5_counterexample :
    ((paginate [tieRowA, tieRowB] 1).map ListResult.bookmarks).flatten = [tieRowA] ∧
    tieRowB ∉ ((paginate [tieRowA, tieRowB] 1).map ListResult.bookmarks).flatten ∧
    tieRowA.deleted_at = none ∧ tieRowB.deleted_at = none := by
  refine ⟨by decide, by decide, rfl, rfl⟩

/-- C5 amended: for a table of N ≥ 1 active records with pairwise-distinct
creation timestamps and distinct identifiers, and any page size L in 1..100,
the cursor-following walk (each call passing the cursor returned by the
previous one) produces pages whose concatenation is exactly the table sorted
by creation time descending — every record exactly once, in order — split
into ceil(N/L) pages of at most L records each, with `hasMore = true` and a
cursor on every page but the last, and `hasMore = false` and no cursor on the
last.  (The distinct-timestamp hypothesis is forced: ties break the
partition, as the counterexample shows; the source flags tie-breaking as an
open design point.) -/
theorem claim_C5_amended (store : List Bookmark) (L : Nat)
    (hactive : ∀ b ∈ store, b.deleted_at = none)
    (hid : (store.map Bookmark.id).Nodup)
    (hct : (store.map Bookmark.created_at).Nodup)
    (hL : 1 ≤ L) (hL2 : L ≤ 100) (hne : store ≠ []) :
    ((paginate store L).map ListResult.bookmarks).flatten = sortByCreatedDesc store ∧
    (((paginate store L).map ListResult.bookmarks).flatten).Perm store ∧
    List.Sorted (fun a b : Bookmark => b.created_at ≤ a.created_at)
      (((paginate store L).map ListResult.bookmarks).flatten) ∧
    (paginate store L).length = (store.length + L - 1) / L ∧
    (∀ p ∈ paginate store L, p.bookmarks.length ≤ L) ∧
    (∀ k p, (paginate store L)[k]? = some p →
      (k + 1 < (paginate store L).length → p.hasMore = true ∧ p.cursor ≠ none) ∧
      (k + 1 = (paginate store L).length → p.hasMore = false ∧ p.cursor = none)) := by
  have hSlen : (sortByCreatedDesc store).length = store.length :=
    (sortByCreatedDesc_perm store).length_eq
  have hfuel : (sortByCreatedDesc store).length < store.length + 1 := by omega
  have heq : paginate store L =
      chunkPages L (store.length + 1) (sortByCreatedDesc store) :=
    paginateAux_eq_chunkPages store L hactive hid hct hL (store.length + 1)
      [] (sortByCreatedDesc store) none (List.nil_append _).symm
      (Or.inl ⟨rfl, rfl⟩) hfuel
  have hSne : sortByCreatedDesc store ≠ [] := by
    intro h
    apply hne
    have h2 := hSlen
    rw [h] at h2
    simp only [List.length_nil] at h2
    exact List.length_eq_zero.mp h2.symm
  have hjoin : ((paginate store L).map ListResult.bookmarks).flatten =
      sortByCreatedDesc store := by
    rw [heq]
    exact chunkPages_join L hL _ _ hfuel
  refine ⟨hjoin, ?_, ?_, ?_, ?_, ?_⟩
  · rw [hjoin]
    exact sortByCreatedDesc_perm store
  · rw [hjoin]
    exact sortByCreatedDesc_sorted store
  · rw [heq, chunkPages_count L hL _ _ hfuel hSne, hSlen]
  · rw [heq]
    exact chunkPages_page_le L _ _
  · intro k p hk
    rw [heq] at hk
    rw [heq]
    exact chunkPages_flags L hL _ _ hfuel k p hk

/-- C5 amended, at a concrete input: three active rows with distinct creation
times, page size 2 — the walk concatenates to the descending-sorted table. -/
theorem claim_C5_witness :
    ((paginate [sampleB1, sampleB2, sampleB3] 2).map ListResult.bookmarks).flatten =
      sortByCreatedDesc [sampleB1, sampleB2, sampleB3] :=
  (claim_C5_amended [sampleB1, sampleB2, sampleB3] 2 (by decide) (by decide)
    (by decide) (by decide) (by decide) (by decide)).1

/-! ### Helper lemmas: schema rejection -/

lemma createRoute_error (store : List Bookmark) (uid : String) (i : RawCreateInput)
    (newId : String) (now : Nat) (h : createFieldErrors i ≠ []) :
    createRoute store uid i newId now =
      { status := 400, details := some (createFieldErrors i), store := store } := by
  unfold createRoute validateCreate
  cases he : createFieldErrors i with
  | nil => exact absurd he h
  | cons e es => rfl

lemma updateRoute_error (store : List Bookmark) (id : String) (j : RawUpdateInput)
    (now : Nat) (h : updateFieldErrors j ≠ []) :
    updateRoute store id j now =
      { status := 400, details := some (updateFieldErrors j), store := store } := by
  unfold updateRoute validateUpdate
  cases he : updateFieldErrors j with
  | nil => exact absurd he h
  | cons e es => rfl

lemma mem_mapfst_ne_nil {es : List (String × List String)} {k : String}
    (h : k ∈ es.map Prod.fst) : es ≠ [] := by
  intro hnil
  rw [hnil] at h
  simp at h

lemma createErrors_title {i : RawCreateInput} {t : String} (hsome : i.title = some t)
    (hviol : t.length = 0 ∨ 500 < t.length) :
    "title" ∈ (createFieldErrors i).map Prod.fst := by
  unfold createFieldErrors
  rcases hviol with h0 | h5
  · have h1 : ¬1 ≤ t.length := by omega
    have h2 : t.length ≤ 500 := by omega
    simp [hsome, h1, h2]
  · have h1 : 1 ≤ t.length := by omega
    have h2 : ¬t.length ≤ 500 := by omega
    simp [hsome, h1, h2]

lemma createErrors_url {i : RawCreateInput} {u : String} (hsome : i.url = some u)
    (hviol : 2048 < u.length ∨ isValidUrl u = false) :
    "url" ∈ (createFieldErrors i).map Prod.fst := by
  unfold createFieldErrors
  rcases hviol with h1 | h1
  · have h2 : ¬u.length ≤ 2048 := by omega
    by_cases h3 : isValidUrl u = true <;> simp [hsome, h2, h3]
  · simp [hsome, h1]

lemma createErrors_description {i : RawCreateInput} {d : String}
    (hsome : i.description = some d) (hviol : 2000 < d.length) :
    "description" ∈ (createFieldErrors i).map Prod.fst := by
  unfold createFieldErrors
  have h2 : ¬d.length ≤ 2000 := by omega
  simp [hsome, h2]

lemma createErrors_tags {i : RawCreateInput} {ts : List String}
    (hsome : i.tags = some ts)
    (hviol : 20 < ts.length ∨ ∃ t ∈ ts, 50 < t.length) :
    "tags" ∈ (createFieldErrors i).map Prod.fst := by
  unfold createFieldErrors
  rcases hviol with h1 | ⟨t, ht, h1⟩
  · have h2 : ¬ts.length ≤ 20 := by omega
    by_cases h3 : ts.all (fun t => t.length ≤ 50) <;> simp [hsome, h2, h3]
  · have h3 : ¬ts.all (fun t => t.length ≤ 50) = true := by
      simp only [List.all_eq_true, decide_eq_true_eq, not_forall]
      exact ⟨t, ht, by omega⟩
    by_cases h2 : ts.length ≤ 20 <;> simp [hsome, h2, h3]

lemma updateErrors_title {j : RawUpdateInput} {t : String} (hsome : j.title = some t)
    (hviol : t.length = 0 ∨ 500 < t.length) :
    "title" ∈ (updateFieldErrors j).map Prod.fst := by
  unfold updateFieldErrors
  rcases hviol with h0 | h5
  · have h1 : ¬1 ≤ t.length := by omega
    have h2 : t.length ≤ 500 := by omega
    simp [hsome, h1, h2]
  · have h1 : 1 ≤ t.length := by omega
    have h2 : ¬t.length ≤ 500 := by omega
    simp [hsome, h1, h2]

lemma updateErrors_url {j : RawUpdateInput} {u : String} (hsome : j.url = some u)
    (hviol : 2048 < u.length ∨ isValidUrl u = false) :
    "url" ∈ (updateFieldErrors j).map Prod.fst := by
  unfold updateFieldErrors
  rcases hviol with h1 | h1
  · have h2 : ¬u.length ≤ 2048 := by omega
    by_cases h3 : isValidUrl u = true <;> simp [hsome, h2, h3]
  · simp [hsome, h1]

lemma updateErrors_description {j : RawUpdateInput} {d : String}
    (hsome : j.description = some d) (hviol : 2000 < d.length) :
    "description" ∈ (updateFieldErrors j).map Prod.fst := by
  unfold updateFieldErrors
  have h2 : ¬d.length ≤ 2000 := by omega
  simp [hsome, h2]

lemma updateErrors_tags {j : RawUpdateInput} {ts : List String}
    (hsome : j.tags = some ts)
    (hviol : 20 < ts.length ∨ ∃ t ∈ ts, 50 < t.length) :
    "tags" ∈ (updateFieldErrors j).map Prod.fst := by
  unfold updateFieldErrors
  rcases hviol with h1 | ⟨t, ht, h1⟩
  · have h2 : ¬ts.length ≤ 20 := by omega
    by_cases h3 : ts.all (fun t => t.length ≤ 50) <;> simp [hsome, h2, h3]
  · have h3 : ¬ts.all (fun t => t.length ≤ 50) = true := by
      simp only [List.all_eq_true, decide_eq_true_eq, not_forall]
      exact ⟨t, ht, by omega⟩
    by_cases h2 : ts.length ≤ 20 <;> simp [hsome, h2, h3]

/-- C3 as stated is false on two of its listed bounds: the tag item schema
`z.string().max(50)` has no minimum length, so a create request whose tag set
contains the empty string is accepted (201, a record is created); and
`z.string().url()` accepts any parseable absolute URL, so a locator with a
non-http(s) scheme such as `ftp://` is accepted as well. -/
theorem claim_C3_counterexample :
    (createRoute [] "u1"
      { url := some "https://example.com", title := some "T",
        description := none, tags := some [""] } "id-1" 3).status = 201 ∧
    (createRoute [] "u1"
      { url := some "https://example.com", title := some "T",
        description := none, tags := some [""] } "id-1" 3).store ≠ [] ∧
    (createRoute [] "u1"
      { url := some "ftp://example.com", title := some "T",
        description := none, tags := none } "id-2" 3).status = 201 := by
  refine ⟨by decide, by decide, by decide⟩

/-- C3 amended: every create or update input violating one of the bounds the
schemas do enforce — label empty or longer than 500, locator longer than 2048
or not a parseable absolute URL, note longer than 2000, more than 20 tags, or
any tag longer than 50 — is rejected with status 400 and a details map keyed
by the offending field, and the table is left unchanged (the validation stage
short-circuits before the handler).  The two remaining bounds of the claim
are not enforced: an empty tag string passes (the tag item schema has no
minimum), and any URL scheme is accepted (no http(s) restriction). -/
theorem claim_C3_amended (store : List Bookmark) (uid : String) (i : RawCreateInput)
    (j : RawUpdateInput) (id newId : String) (now : Nat) :
    (∀ t, i.title = some t → (t.length = 0 ∨ 500 < t.length) →
      (createRoute store uid i newId now).status = 400 ∧
      (∃ es, (createRoute store uid i newId now).details = some es ∧
        "title" ∈ es.map Prod.fst) ∧
      (createRoute store uid i newId now).store = store) ∧
    (∀ u, i.url = some u → (2048 < u.length ∨ isValidUrl u = false) →
      (createRoute store uid i newId now).status = 400 ∧
      (∃ es, (createRoute store uid i newId now).details = some es ∧
        "url" ∈ es.map Prod.fst) ∧
      (createRoute store uid i newId now).store = store) ∧
    (∀ d, i.description = some d → 2000 < d.length →
      (createRoute store uid i newId now).status = 400 ∧
      (∃ es, (createRoute store uid i newId now).details = some es ∧
        "description" ∈ es.map Prod.fst) ∧
      (createRoute store uid i newId now).store = store) ∧
    (∀ ts, i.tags = some ts → (20 < ts.length ∨ ∃ t ∈ ts, 50 < t.length) →
      (createRoute store uid i newId now).status = 400 ∧
      (∃ es, (createRoute store uid i newId now).details = some es ∧
        "tags" ∈ es.map Prod.fst) ∧
      (createRoute store uid i newId now).store = store) ∧
    (∀ t, j.title = some t → (t.length = 0 ∨ 500 < t.length) →
      (updateRoute store id j now).status = 400 ∧
      (∃ es, (updateRoute store id j now).details = some es ∧
        "title" ∈ es.map Prod.fst) ∧
      (updateRoute store id j now).store = store) ∧
    (∀ u, j.url = some u → (2048 < u.length ∨ isValidUrl u = false) →
      (updateRoute store id j now).status = 400 ∧
      (∃ es, (updateRoute store id j now).details = some es ∧
        "url" ∈ es.map Prod.fst) ∧
      (updateRoute store id j now).store = store) ∧
    (∀ d, j.description = some d → 2000 < d.length →
      (updateRoute store id j now).status = 400 ∧
      (∃ es, (updateRoute store id j now).details = some es ∧
        "description" ∈ es.map Prod.fst) ∧
      (updateRoute store id j now).store = store) ∧
    (∀ ts, j.tags = some ts → (20 < ts.length ∨ ∃ t ∈ ts, 50 < t.length) →
      (updateRoute store id j now).status = 400 ∧
      (∃ es, (updateRoute store id j now).details = some es ∧
        "tags" ∈ es.map Prod.fst) ∧
      (updateRoute store id j now).store = store) := by
  refine ⟨?_, ?_, ?_, ?_, ?_, ?_, ?_, ?_⟩
  · intro t hsome hviol
    have hk := createErrors_title hsome hviol
    rw [createRoute_error store uid i newId now (mem_mapfst_ne_nil hk)]
    exact ⟨rfl, ⟨_, rfl, hk⟩, rfl⟩
  · intro u hsome hviol
    have hk := createErrors_url hsome hviol
    rw [createRoute_error store uid i newId now (mem_mapfst_ne_nil hk)]
    exact ⟨rfl, ⟨_, rfl, hk⟩, rfl⟩
  · intro d hsome hviol
    have hk := createErrors_description hsome hviol
    rw [createRoute_error store uid i newId now (mem_mapfst_ne_nil hk)]
    exact ⟨rfl, ⟨_, rfl, hk⟩, rfl⟩
  · intro ts hsome hviol
    have hk := createErrors_tags hsome hviol
    rw [createRoute_error store uid i newId now (mem_mapfst_ne_nil hk)]
    exact ⟨rfl, ⟨_, rfl, hk⟩, rfl⟩
  · intro t hsome hviol
    have hk := updateErrors_title hsome hviol
    rw [updateRoute_error store id j now (mem_mapfst_ne_nil hk)]
    exact ⟨rfl, ⟨_, rfl, hk⟩, rfl⟩
  · intro u hsome hviol
    have hk := updateErrors_url hsome hviol
    rw [updateRoute_error store id j now (mem_mapfst_ne_nil hk)]
    exact ⟨rfl, ⟨_, rfl, hk⟩, rfl⟩
  · intro d hsome hviol
    have hk := updateErrors_description hsome hviol
    rw [updateRoute_error store id j now (mem_mapfst_ne_nil hk)]
    exact ⟨rfl, ⟨_, rfl, hk⟩, rfl⟩
  · intro ts hsome hviol
    have hk := updateErrors_tags hsome hviol
    rw [updateRoute_error store id j now (mem_mapfst_ne_nil hk)]
    exact ⟨rfl, ⟨_, rfl, hk⟩, rfl⟩

/-- C8 as stated is false on a reachable trace: on an authenticated non-public
path, the Authenticator's `try` block wraps `await next()`, so a value thrown
by a downstream stage is caught **there**, not at the Error Boundary — the
client receives 401 `Authentication failed` (not the generic 500), and the
boundary emits no `server.unhandled_error` record at all (the Authenticator's
own `auth.verification_error` log carries only the path and message, no
method or stack).  Evaluated at a concrete request with a verified credential
and a throwing downstream stage. -/
theorem claim_C8_counterexample :
    (apiPipeline "/api/bookmarks" "GET" none (some "Bearer tok")
      (fun _ => .okUser "u1") (.error (.exception "boom" (some "stack")))).2.status = 401 ∧
    (apiPipeline "/api/bookmarks" "GET" none (some "Bearer tok")
      (fun _ => .okUser "u1") (.error (.exception "boom" (some "stack")))).2 ≠
      genericInternalResp ∧
    (apiPipeline "/api/bookmarks" "GET" none (some "Bearer tok")
      (fun _ => .okUser "u1") (.error (.exception "boom" (some "stack")))).1 = [] := by
  refine ⟨by decide, by decide, by decide⟩

/-- C8 amended: a thrown value is converted to the fixed-shape generic 500 —
a constant carrying no message, stack or field of the thrown value — with the
full detail (message, or `Unknown error` for a non-`Error` value; stack when
available; path, method, caller identity) logged first, **whenever the throw
reaches the Error Boundary**: in particular whatever the pipeline delivers to
the boundary, and any downstream throw on a public-bypass path, where the
Authenticator runs `await next()` outside its `try`.  But on a non-public
path with a provider-verified credential, a downstream throw is intercepted
by the Authenticator's `try`/`catch` and answered 401 `Authentication failed`
with no boundary log — it never reaches the Error Boundary. -/
theorem claim_C8_amended (path method : String) (ctxUser : Option String)
    (hdr : Option String) (provider : String → ProviderResult) (t : Thrown)
    (uid : String) :
    pipeline path method ctxUser hdr (.error t) =
      ([{ level := "error"
          event := "server.unhandled_error"
          actor := ctxUser.getD "unauthenticated"
          outcome := "failure"
          path := path
          method := method
          errorMsg := some (thrownMessage t)
          stack := thrownStack t }],
        genericInternalResp) ∧
    (strStartsWith path "/api/auth" = true →
      apiPipeline path method ctxUser hdr provider (.error t) =
        ([{ level := "error"
            event := "server.unhandled_error"
            actor := ctxUser.getD "unauthenticated"
            outcome := "failure"
            path := path
            method := method
            errorMsg := some (thrownMessage t)
            stack := thrownStack t }],
          genericInternalResp)) ∧
    (∀ h, strStartsWith path "/api/auth" = false → hdr = some h →
      strStartsWith h "Bearer " = true →
      provider (strSlice h 7) = .okUser uid →
      (apiPipeline path method ctxUser hdr provider (.error t)).1 = [] ∧
      (apiPipeline path method ctxUser hdr provider (.error t)).2.status = 401 ∧
      (apiPipeline path method ctxUser hdr provider (.error t)).2 ≠
        genericInternalResp) := by
  refine ⟨rfl, ?_, ?_⟩
  · intro hp
    simp only [apiPipeline, authLayer, authStep, hp, if_true]
    rfl
  · intro h hp hh hb hprov
    subst hh
    have hstep : authStep path (some h) = .providerVerify (strSlice h 7) := by
      simp [authStep, hp, hb]
    have hcalc : apiPipeline path method ctxUser (some h) provider (.error t) =
        ([], { authFailed401 with
          headers := applySecurityHeaders (some h) authFailed401.headers }) := by
      simp [apiPipeline, authLayer, hstep, hprov, headersLayer, errorLayer]
    refine ⟨by rw [hcalc], by rw [hcalc]; rfl, ?_⟩
    rw [hcalc]
    intro heq
    have := congrArg Resp.status heq
    simp [genericInternalResp, authFailed401] at this

/-- C2 is violated by the code: `errorMiddleware` is registered outside
`headersMiddleware` (`index.ts` lines 26-27), and `headersMiddleware`
decorates only after `await next()` returns without throwing, so the generic
500 the Error Boundary produces for a thrown value carries none of the six
security headers — contradicting the code's own invariant comments
(`index.ts`: every response including errors; `headers.ts`: every response
leaving the application).  Evaluated at a concrete throwing request. -/
theorem claim_C2_boundary_500_lacks_headers :
    (pipeline "/api/bookmarks" "GET" none (some "Bearer tok")
      (.error (.exception "boom" (some "stacktrace")))).2.status = 500 ∧
    (securityHeaderNames.all (fun n =>
      getHeader (pipeline "/api/bookmarks" "GET" none (some "Bearer tok")
        (.error (.exception "boom" (some "stacktrace")))).2.headers n = none)) = true ∧
    (securityHeaderNames.all (fun n =>
      getHeader (pipeline "/api/bookmarks" "GET" none (some "Bearer tok")
        (.ok { status := 200, headers := [], body := "" })).2.headers n ≠ none)) = true := by
  decide

/-- C7 as stated is false at the empty credential: the header `Bearer ` (with
the trailing space) passes the scheme gate, so the empty token is handed to
the identity provider rather than rejected locally — the outcome depends on
the provider's answer, and a provider that accepted the empty token would
forward the request. -/
theorem claim_C7_counterexample :
    authStep "/api/bookmarks" (some "Bearer ") = .providerVerify "" ∧
    authStep "/api/bookmarks" (some "Bearer ") ≠ .missingToken401 ∧
    authMiddleware "/api/bookmarks" (some "Bearer ")
      (fun _ => .okUser "mallory") = .forwarded (some "mallory") := by
  decide

/-- C7 amended: on a non-public path, a missing `Authorization` header or one
not starting with `Bearer ` fails closed with 401 `Authentication required`
for every possible provider — the provider is never consulted; an empty
credential (header exactly `Bearer `), however, is handed to the provider and
answers 401 `Invalid or expired token` only when the provider rejects it. -/
theorem claim_C7_amended (path : String) (hdr : Option String)
    (provider : String → ProviderResult)
    (hpath : strStartsWith path "/api/auth" = false) :
    ((hdr = none ∨ ∃ s, hdr = some s ∧ strStartsWith s "Bearer " = false) →
      authMiddleware path hdr provider = .resp401 "Authentication required") ∧
    (provider "" = .rejected →
      authMiddleware path (some "Bearer ") provider =
        .resp401 "Invalid or expired token") := by
  constructor
  · rintro (rfl | ⟨s, rfl, hs⟩)
    · simp [authMiddleware, authStep, hpath]
    · simp [authMiddleware, authStep, hpath, hs]
  · intro hprov
    have hb : strStartsWith "Bearer " "Bearer " = true := by decide
    have he : strSlice "Bearer " 7 = "" := by decide
    simp [authMiddleware, authStep, hpath, hb, he, hprov]

/-- C7 amended, at a concrete input: path `/api/bookmarks`, no header, a
rejecting provider. -/
theorem claim_C7_witness :
    ((none = (none : Option String) ∨ ∃ s, (none : Option String) = some s ∧
        strStartsWith s "Bearer " = false) →
      authMiddleware "/api/bookmarks" none (fun _ => .rejected) =
        .resp401 "Authentication required") ∧
    ((fun _ : String => ProviderResult.rejected) "" = .rejected →
      authMiddleware "/api/bookmarks" (some "Bearer ") (fun _ => .rejected) =
        .resp401 "Invalid or expired token") :=
  claim_C7_amended "/api/bookmarks" none (fun _ => .rejected) (by decide)

/-- C4 as stated is false: deleting an absent record still reports success.
On an empty table, `DELETE` with a well-formed id answers 204 and performs no
mutation — the handler calls `deleteBookmark` (which returns `true`
unconditionally when the store reports no error) and then answers 204 without
inspecting whether an active row existed. -/
theorem claim_C4_counterexample :
    deleteRoute [] "00000000-0000-0000-0000-000000000000" 5 =
      { status := 204, details := none, store := [] } := by
  decide

/-- C4 amended: the delete operation is idempotent in effect — deleting an
absent or already-deleted record performs no mutation — but it reports 204 to
the caller whenever the id is well-formed and the store reports no error,
whether or not an active record existed to delete. -/
theorem claim_C4_amended (store : List Bookmark) (id : String) (now : Nat)
    (hid : isUuidLike id = true) :
    (deleteRoute store id now).status = 204 ∧
    ((∀ b ∈ store, b.id = id → b.deleted_at ≠ none) →
      (deleteRoute store id now).store = store) := by
  refine ⟨by simp [deleteRoute, hid], fun h => ?_⟩
  have hmap : (deleteBookmark store id now).2 = store := by
    show store.map _ = store
    conv_rhs => rw [← List.map_id store]
    apply List.map_congr_left
    intro b hb
    by_cases hb1 : b.id = id
    · have h2 : b.deleted_at ≠ none := h b hb hb1
      simp [hb1, h2]
    · simp [hb1]
  simp [deleteRoute, hid, hmap]

/-- C4 amended, at a concrete input: the empty table and the nil uuid. -/
theorem claim_C4_witness :
    (deleteRoute [] "00000000-0000-0000-0000-000000000000" 9).status = 204 ∧
    ((∀ b ∈ ([] : List Bookmark),
        b.id = "00000000-0000-0000-0000-000000000000" → b.deleted_at ≠ none) →
      (deleteRoute [] "00000000-0000-0000-0000-000000000000" 9).store = []) :=
  claim_C4_amended [] "00000000-0000-0000-0000-000000000000" 9 (by decide)

/-- C9 as stated is false at a present-but-empty note: the create schema
accepts `description: ""`, but `createBookmark` coerces it with
`data.description || null`, so the stored and returned note is `null`, not
the empty string supplied in the input. -/
theorem claim_C9_counterexample :
    validateCreate
      { url := some "https://example.com", title := some "Example",
        description := some "", tags := none } =
      .ok { url := "https://example.com", title := "Example",
            description := some "", tags := none } ∧
    (createBookmark "user-1"
      { url := "https://example.com", title := "Example",
        description := some "", tags := none } "id-1" 7 []).1.description = none :=
  ⟨rfl, rfl⟩

/-- C9 amended: for every schema-accepted create input, the returned record
binds the owner to the caller and the server-assigned id, is active, and its
visible fields equal the input fields — except that a present-but-empty note
is coerced to null (JavaScript `|| null`); absent optional fields are null. -/
theorem claim_C9_amended (userId : String) (d : CreateBookmark) (newId : String)
    (now : Nat) (store : List Bookmark) :
    ((createBookmark userId d newId now store).1.url = d.url) ∧
    ((createBookmark userId d newId now store).1.title = d.title) ∧
    ((createBookmark userId d newId now store).1.user_id = userId) ∧
    ((createBookmark userId d newId now store).1.id = newId) ∧
    ((createBookmark userId d newId now store).1.tags = d.tags) ∧
    ((createBookmark userId d newId now store).1.deleted_at = none) ∧
    (d.description = none →
      (createBookmark userId d newId now store).1.description = none) ∧
    (d.description = some "" →
      (createBookmark userId d newId now store).1.description = none) ∧
    (∀ s, d.description = some s → s ≠ "" →
      (createBookmark userId d newId now store).1.description = some s) := by
  obtain ⟨u, t, ds, tg⟩ := d
  refine ⟨rfl, rfl, rfl, rfl, ?_, rfl, ?_, ?_, ?_⟩
  · cases tg <;> rfl
  · rintro rfl; rfl
  · rintro rfl; simp [createBookmark, jsOrNull]
  · rintro s rfl hs; simp [createBookmark, jsOrNull, hs]

example : getUserTags [] = [] := rfl
